import Mathlib

/-!
Verification of the orderflow-telemetry backend core against its
specification.  Numeric values are modelled as rationals, exchange
sequence ids and millisecond timestamps as integers.  Each definition
is a direct shallow embedding of the corresponding source function.
-/

set_option linter.unusedVariables false

/-- Aggressor side of a trade. -/
inductive Side where
  | buy : Side
  | sell : Side
deriving DecidableEq, Repr

/- ----------------------------------------------------------------
   Freeze controller (src/server/orchestrator/FreezeController.ts).
   The exec-quality level is a union of string literals in the source;
   it is modelled as a plain string, compared exactly as the code does.
   ---------------------------------------------------------------- -/

/-- Result of `assessFreezeFromExecQuality`. -/
structure FreezeAssessment where
  freezeActive : Bool
  reason : Option String
deriving DecidableEq, Repr

/-- Embedding of `assessFreezeFromExecQuality`: UNKNOWN gives an inactive
freeze with reason `exec_quality_unknown`, BAD an active freeze with
reason `exec_quality_bad`, anything else inactive with no reason. -/
def assessFreezeFromExecQuality (quality : String) : FreezeAssessment :=
  if quality = "UNKNOWN" then { freezeActive := false, reason := some "exec_quality_unknown" }
  else if quality = "BAD" then { freezeActive := true, reason := some "exec_quality_bad" }
  else { freezeActive := false, reason := none }

/- ----------------------------------------------------------------
   Sizing (src/unnamed/part_002): roundDownToStep, computeSizingFromBudget.
   Source numbers are finite doubles; the embedding uses rationals, in
   which every value is finite, so the source's Number.isFinite guards
   are identically true and only the sign guards remain.
   ---------------------------------------------------------------- -/

/-- Input record of `computeSizingFromBudget`. -/
structure SizingInput where
  startingMarginUsdt : ℚ
  currentMarginBudgetUsdt : ℚ
  leverage : ℚ
  markPrice : ℚ
  stepSize : ℚ
  minNotionalUsdt : ℚ
deriving DecidableEq, Repr

/-- Result record of `computeSizingFromBudget`. -/
structure SizingComputation where
  markPrice : ℚ
  startingMarginUsdt : ℚ
  currentMarginBudgetUsdt : ℚ
  rampMult : ℚ
  leverage : ℚ
  notionalUsdt : ℚ
  qty : ℚ
  qtyRounded : ℚ
  minNotionalOk : Bool
  marginRequiredUsdt : ℚ
  blockedReason : Option String
deriving DecidableEq, Repr

/-- Embedding of `roundDownToStep`: zero on non-positive quantity or
step, otherwise the quantity rounded down to a whole number of steps. -/
def roundDownToStep (rawQty stepSize : ℚ) : ℚ :=
  if rawQty ≤ 0 then 0
  else if stepSize ≤ 0 then 0
  else (⌊rawQty / stepSize⌋ : ℚ) * stepSize

/-- Embedding of `computeSizingFromBudget`. -/
def computeSizingFromBudget (input : SizingInput) : SizingComputation :=
  let notionalUsdt := input.currentMarginBudgetUsdt * input.leverage
  let qty := if input.markPrice > 0 then notionalUsdt / input.markPrice else 0
  let qtyRounded := roundDownToStep qty input.stepSize
  let computedNotional := qtyRounded * input.markPrice
  let minNotionalOk := decide (computedNotional ≥ input.minNotionalUsdt)
  let blockedReason : Option String :=
    if qtyRounded ≤ 0 ∨ ¬(computedNotional ≥ input.minNotionalUsdt) then some "min_notional" else none
  { markPrice := input.markPrice
    startingMarginUsdt := input.startingMarginUsdt
    currentMarginBudgetUsdt := input.currentMarginBudgetUsdt
    rampMult := if input.startingMarginUsdt > 0 then
        input.currentMarginBudgetUsdt / input.startingMarginUsdt else 0
    leverage := input.leverage
    notionalUsdt := computedNotional
    qty := qty
    qtyRounded := qtyRounded
    minNotionalOk := minNotionalOk
    marginRequiredUsdt := if input.leverage > 0 then computedNotional / input.leverage
      else computedNotional
    blockedReason := blockedReason }

/- ----------------------------------------------------------------
   SizingRamp (src/unnamed/part_002): computeRampBounds, onTradeClosed.
   ---------------------------------------------------------------- -/

/-- Configuration of the sizing ramp. -/
structure SizingRampConfig where
  startingMarginUsdt : ℚ
  minMarginUsdt : ℚ
  rampStepPct : ℚ
  rampDecayPct : ℚ
  rampMaxMult : ℚ
deriving DecidableEq, Repr

/-- Mutable state of the sizing ramp. -/
structure SizingRampState where
  currentMarginBudgetUsdt : ℚ
  rampMult : ℚ
  successCount : ℕ
  failCount : ℕ
deriving DecidableEq, Repr

/-- Embedding of `computeRampBounds`: lower bound `max 0 minMargin`,
upper bound `max lower (startingMargin * max 1 rampMaxMult)`. -/
def computeRampBounds (config : SizingRampConfig) : ℚ × ℚ :=
  let lo := max 0 config.minMarginUsdt
  let hi := max lo (config.startingMarginUsdt * max 1 config.rampMaxMult)
  (lo, hi)

/-- Embedding of `SizingRamp.clamp`. -/
def rampClamp (config : SizingRampConfig) (value : ℚ) : ℚ :=
  let bounds := computeRampBounds config
  max bounds.1 (min bounds.2 value)

/-- Embedding of `SizingRamp.onTradeClosed`: grow the budget by
`rampStepPct` percent on a win, shrink it by `rampDecayPct` percent on
a loss, clamping to the ramp bounds either way. -/
def onTradeClosed (config : SizingRampConfig) (state : SizingRampState)
    (realizedPnl : ℚ) : SizingRampState :=
  let nextBudget :=
    if realizedPnl > 0 then
      rampClamp config (state.currentMarginBudgetUsdt * (1 + config.rampStepPct / 100))
    else
      rampClamp config (state.currentMarginBudgetUsdt * (1 - config.rampDecayPct / 100))
  { currentMarginBudgetUsdt := nextBudget
    rampMult := if config.startingMarginUsdt > 0 then
        nextBudget / config.startingMarginUsdt else 0
    successCount := if realizedPnl > 0 then state.successCount + 1 else state.successCount
    failCount := if realizedPnl > 0 then state.failCount else state.failCount + 1 }

/- ----------------------------------------------------------------
   Order book state and the depth-diff synchroniser.
   The state type is used by LegacyCalculator.computeMetrics in
   src/unnamed/part_000; price-to-size maps are modelled as
   association lists of (price, size) pairs.
   ---------------------------------------------------------------- -/

/-- L2 order-book state: bid and ask levels plus the sequence id of
the last applied diff. -/
structure OrderbookState where
  bids : List (ℚ × ℚ)
  asks : List (ℚ × ℚ)
  lastUpdateId : ℤ
deriving DecidableEq, Repr

/-- A depth diff `{U, u, b, a}` from the wire protocol. -/
structure DepthUpdate where
  U : ℤ
  u : ℤ
  b : List (ℚ × ℚ)
  a : List (ℚ × ℚ)
deriving DecidableEq, Repr

/-- Result of applying a depth diff. -/
structure DepthUpdateResult where
  ok : Bool
  applied : Bool
  dropped : Bool
  gapDetected : Bool
deriving DecidableEq, Repr

/-- Modelled from the spec: application of one `(price, size)` pair to
one side of the book (OrderbookManager is not among the provided
sources; spec section 4.1: "if `size == 0`, remove the level; else
upsert"). -/
def applyLevel (levels : List (ℚ × ℚ)) (pair : ℚ × ℚ) : List (ℚ × ℚ) :=
  if pair.2 = 0 then levels.filter (fun l => l.1 ≠ pair.1)
  else if levels.any (fun l => l.1 = pair.1) then
    levels.map (fun l => if l.1 = pair.1 then pair else l)
  else levels ++ [pair]

/-- Modelled from the spec: `applyDepthUpdate` of OrderbookManager,
which is not among the provided sources (only its tests and callers
are).  Spec section 4.1: a diff with `u ≤ lastUpdateId` is discarded
as `{ok:true, dropped:true}`; a diff with `U > lastUpdateId + 1` is a
gap, `{ok:false, gapDetected:true}`; otherwise `U ≤ lastUpdateId + 1 ≤ u`
holds, every pair in `b` and `a` is applied and `lastUpdateId`
becomes `u`, with result `{ok:true, applied:true}`. -/
def applyDepthUpdate (ob : OrderbookState) (upd : DepthUpdate) :
    OrderbookState × DepthUpdateResult :=
  if upd.u ≤ ob.lastUpdateId then
    (ob, { ok := true, applied := false, dropped := true, gapDetected := false })
  else if upd.U > ob.lastUpdateId + 1 then
    (ob, { ok := false, applied := false, dropped := false, gapDetected := true })
  else
    ({ bids := upd.b.foldl applyLevel ob.bids
       asks := upd.a.foldl applyLevel ob.asks
       lastUpdateId := upd.u },
     { ok := true, applied := true, dropped := false, gapDetected := false })

/- ----------------------------------------------------------------
   LegacyCalculator (src/unnamed/part_000): order-book imbalance,
   rolling trade list, session statistics.
   ---------------------------------------------------------------- -/

/-- Epsilon guard used by the metric calculations. -/
def EPSILON : ℚ := 1 / 10 ^ 12

/-- A trade as consumed by the legacy calculator. -/
structure LegacyTrade where
  price : ℚ
  quantity : ℚ
  side : Side
  timestamp : ℤ
deriving DecidableEq, Repr

/-- Signed quantity of a trade: positive for buys, negative for sells. -/
def signedQty (t : LegacyTrade) : ℚ :=
  if t.side = Side.buy then t.quantity else -t.quantity

/-- Embedding of the `calcVolume` helper of
`LegacyCalculator.computeMetrics`: sort the levels (descending for
bids, ascending for asks) and sum the sizes of the best `depth`
levels. -/
def calcVolume (levels : List (ℚ × ℚ)) (depth : ℕ) (isAsk : Bool) : ℚ :=
  let sorted := levels.mergeSort (fun x y => if isAsk then x.1 ≤ y.1 else y.1 ≤ x.1)
  (((sorted.take depth).map Prod.snd)).sum

/-- Embedding of the order-book-imbalance fragment of
`LegacyCalculator.computeMetrics`: the triple
`(obiWeighted, obiDeep, obiDivergence)`. -/
def obiMetrics (ob : OrderbookState) : ℚ × ℚ × ℚ :=
  let bidVol10 := calcVolume ob.bids 10 false
  let askVol10 := calcVolume ob.asks 10 true
  let obiWeighted :=
    if bidVol10 + askVol10 > EPSILON then (bidVol10 - askVol10) / (bidVol10 + askVol10) else 0
  let bidVol50 := calcVolume ob.bids 50 false
  let askVol50 := calcVolume ob.asks 50 true
  let obiDeep :=
    if bidVol50 + askVol50 > EPSILON then (bidVol50 - askVol50) / (bidVol50 + askVol50) else 0
  (obiWeighted, obiDeep, obiWeighted - obiDeep)

/-- State of the legacy calculator that `addTrade` mutates. -/
structure LegacyCalcState where
  trades : List LegacyTrade
  deltaHistory : List ℚ
  cvdHistory : List ℚ
  volumeHistory : List ℚ
  cvdSession : ℚ
  totalVolume : ℚ
  totalNotional : ℚ
deriving DecidableEq, Repr

/-- Fresh legacy-calculator state. -/
def legacyInit : LegacyCalcState :=
  { trades := [], deltaHistory := [], cvdHistory := [], volumeHistory := []
    cvdSession := 0, totalVolume := 0, totalNotional := 0 }

/-- Embedding of `LegacyCalculator.addTrade`: append the trade, update
session totals, evict trades older than ten seconds from the front,
recompute the one- and five-second deltas and push them onto the
bounded histories. -/
def legacyAddTrade (s : LegacyCalcState) (trade : LegacyTrade) : LegacyCalcState :=
  let now := trade.timestamp
  let trades1 := s.trades ++ [trade]
  let cutoff := now - 10000
  let trades2 := trades1.dropWhile (fun t => t.timestamp < cutoff)
  let delta1s := ((trades2.filter (fun t => t.timestamp ≥ now - 1000)).map signedQty).sum
  let delta5s := ((trades2.filter (fun t => t.timestamp ≥ now - 5000)).map signedQty).sum
  let deltaHistory1 := s.deltaHistory ++ [delta1s]
  let cvdSession1 := s.cvdSession + signedQty trade
  let cvdHistory1 := s.cvdHistory ++ [cvdSession1]
  let volumeHistory1 := s.volumeHistory ++ [trade.quantity]
  { trades := trades2
    deltaHistory := if deltaHistory1.length > 60 then deltaHistory1.drop 1 else deltaHistory1
    cvdHistory := if cvdHistory1.length > 60 then cvdHistory1.drop 1 else cvdHistory1
    volumeHistory := if volumeHistory1.length > 100 then volumeHistory1.drop 1 else volumeHistory1
    cvdSession := cvdSession1
    totalVolume := s.totalVolume + trade.quantity
    totalNotional := s.totalNotional + trade.quantity * trade.price }

/- ----------------------------------------------------------------
   CvdCalculator (src/server/metrics/CvdCalculator.ts).  Each
   timeframe keeps an independent window; the embedding models one
   window, parameterised by its duration in milliseconds.
   ---------------------------------------------------------------- -/

/-- A trade event as consumed by the CVD calculator. -/
structure TradeEvent where
  price : ℚ
  quantity : ℚ
  side : Side
  timestamp : ℤ
deriving DecidableEq, Repr

/-- A stored CVD trade: the quantity field holds the signed quantity. -/
structure StoredCvdTrade where
  quantity : ℚ
  timestamp : ℤ
  price : ℚ
deriving DecidableEq, Repr

/-- Signed quantity of a trade event. -/
def signedTe (e : TradeEvent) : ℚ :=
  if e.side = Side.buy then e.quantity else -e.quantity

/-- The stored form of a trade event (the wall-clock arrival field of
the source is unused by the metrics and omitted). -/
def storeCvd (e : TradeEvent) : StoredCvdTrade :=
  { quantity := signedTe e, timestamp := e.timestamp, price := e.price }

/-- Embedding of the per-timeframe body of `CvdCalculator.addTrade`:
push the signed trade, then keep only the trades whose timestamp is
at least the incoming event's timestamp minus the window duration. -/
def cvdAddTrade (ms : ℤ) (arr : List StoredCvdTrade) (event : TradeEvent) :
    List StoredCvdTrade :=
  (arr ++ [storeCvd event]).filter (fun t => t.timestamp ≥ event.timestamp - ms)

/-- Per-timeframe output of `CvdCalculator.computeMetrics`. -/
structure CvdMetrics where
  cvd : ℚ
  delta : ℚ
deriving DecidableEq, Repr

/-- Embedding of the per-timeframe body of
`CvdCalculator.computeMetrics`: the cvd is the sum of the stored
signed quantities and the delta equals the cvd. -/
def cvdComputeMetrics (arr : List StoredCvdTrade) : CvdMetrics :=
  let cvd := (arr.map (fun t => t.quantity)).sum
  { cvd := cvd, delta := cvd }

/- ----------------------------------------------------------------
   OpenInterestMonitor (src/unnamed/part_001): buildMetrics.
   ---------------------------------------------------------------- -/

/-- One sample of the open-interest history. -/
structure OiSample where
  value : ℚ
  timestamp : ℤ
deriving DecidableEq, Repr

/-- The 60-second baseline window of the monitor. -/
def WINDOW_MS : ℤ := 60000

/-- Metrics produced by `buildMetrics`. -/
structure OiMetrics where
  openInterest : ℚ
  oiChangeAbs : ℚ
  oiChangePct : ℚ
  oiDeltaWindow : ℚ
deriving DecidableEq, Repr

/-- Embedding of `OpenInterestMonitor.buildMetrics`: the baseline is
the first history sample with timestamp at least `now - WINDOW_MS`,
falling back to the oldest sample, or to the current OI when the
history is empty. -/
def buildMetrics (oiHistory : List OiSample) (currentOI : ℚ) (now : ℤ) : OiMetrics :=
  let windowStart := now - WINDOW_MS
  let baselineItem :=
    match oiHistory.find? (fun h => h.timestamp ≥ windowStart) with
    | some item => some item
    | none => oiHistory.head?
  let baseline :=
    match baselineItem with
    | some item => item.value
    | none => currentOI
  let oiDeltaWindow := currentOI - baseline
  let oiChangePct := if baseline > 0 then oiDeltaWindow / baseline * 100 else 0
  { openInterest := currentOI
    oiChangeAbs := oiDeltaWindow
    oiChangePct := oiChangePct
    oiDeltaWindow := oiDeltaWindow }

/-- The synthetic order book of the repository's OBI test:
bids {100: 10, 99: 5}, asks {101: 7, 102: 3}. -/
def obS2 : OrderbookState :=
  { bids := [(100, 10), (99, 5)], asks := [(101, 7), (102, 3)], lastUpdateId := 0 }

/-- Three buys of quantity 1 whose timestamps arrive out of order
(1000, 2000, then 100). -/
def cvdCexEvents : List TradeEvent :=
  [{ price := 100, quantity := 1, side := Side.buy, timestamp := 1000 },
   { price := 100, quantity := 1, side := Side.buy, timestamp := 2000 },
   { price := 100, quantity := 1, side := Side.buy, timestamp := 100 }]

/-- Witness trade: a buy of quantity 1 at t = 0. -/
def cvdWitA : TradeEvent :=
  { price := 100, quantity := 1, side := Side.buy, timestamp := 0 }

/-- Witness trade: a sell of quantity 2 at t = 500. -/
def cvdWitB : TradeEvent :=
  { price := 101, quantity := 2, side := Side.sell, timestamp := 500 }

/-- A single buy trade used to model a burst of identically timestamped
trades. -/
def burstTrade : LegacyTrade :=
  { price := 100, quantity := 1, side := Side.buy, timestamp := 0 }

/-- The trade-event form of the burst trade. -/
def burstEvent : TradeEvent :=
  { price := 100, quantity := 1, side := Side.buy, timestamp := 0 }

/-- A two-sample open-interest history: value 100 at t = 0 and value
110 at t = 30000. -/
def oiHistW : List OiSample :=
  [{ value := 100, timestamp := 0 }, { value := 110, timestamp := 30000 }]

/- ----------------------------------------------------------------
   Theorems.
   ---------------------------------------------------------------- -/

/-- C10: `assessFreezeFromExecQuality` returns an active freeze exactly
for the level "BAD"; the level "UNKNOWN" yields an inactive freeze with
the non-null reason "exec_quality_unknown"; every other level yields an
inactive freeze with a null reason. -/
theorem freeze_assessment_cases (quality : String) :
    ((assessFreezeFromExecQuality quality).freezeActive = true ↔ quality = "BAD") ∧
    (quality = "UNKNOWN" →
      assessFreezeFromExecQuality quality =
        { freezeActive := false, reason := some "exec_quality_unknown" }) ∧
    (quality ≠ "BAD" → quality ≠ "UNKNOWN" →
      assessFreezeFromExecQuality quality = { freezeActive := false, reason := none }) := by
  unfold assessFreezeFromExecQuality
  by_cases h1 : quality = "UNKNOWN" <;> by_cases h2 : quality = "BAD" <;>
    simp_all

/-- C10 witness: a level that is neither "BAD" nor "UNKNOWN" yields an
inactive freeze with no reason. -/
theorem freeze_assessment_cases_witness :
    assessFreezeFromExecQuality "GOOD" = { freezeActive := false, reason := none } :=
  (freeze_assessment_cases "GOOD").2.2 (by decide) (by decide)

/-- The ramp clamp always lands inside the ramp bounds. -/
theorem rampClamp_mem (config : SizingRampConfig) (value : ℚ) :
    (computeRampBounds config).1 ≤ rampClamp config value ∧
    rampClamp config value ≤ (computeRampBounds config).2 := by
  unfold rampClamp computeRampBounds
  constructor
  · exact le_max_left _ _
  · exact max_le (le_max_left _ _) (min_le_left _ _)

/-- C2: after every `onTradeClosed` transition — hence after each call in
any finite sequence of calls with arbitrary realized P&L — the margin
budget satisfies
`max 0 minMargin ≤ budget ≤ max (max 0 minMargin) (startingMargin * max 1 rampMaxMult)`. -/
theorem ramp_budget_bounds (config : SizingRampConfig) (state : SizingRampState)
    (realizedPnl : ℚ) :
    max 0 config.minMarginUsdt ≤ (onTradeClosed config state realizedPnl).currentMarginBudgetUsdt ∧
    (onTradeClosed config state realizedPnl).currentMarginBudgetUsdt ≤
      max (max 0 config.minMarginUsdt) (config.startingMarginUsdt * max 1 config.rampMaxMult) := by
  have hbudget : (onTradeClosed config state realizedPnl).currentMarginBudgetUsdt =
      rampClamp config (if realizedPnl > 0 then
        state.currentMarginBudgetUsdt * (1 + config.rampStepPct / 100)
      else state.currentMarginBudgetUsdt * (1 - config.rampDecayPct / 100)) := by
    by_cases h : realizedPnl > 0 <;> simp [onTradeClosed, h]
  rw [hbudget]
  exact rampClamp_mem config _

/-- C6 counterexample: at leverage 1/2 with a budget of 100, mark price 1,
step size 1 and min notional 0, the code returns marginRequired = 100
(computedNotional / leverage), while the claimed formula
computedNotional / max(leverage, 1) gives 50. -/
theorem marginRequired_max_formula_cex :
    (computeSizingFromBudget
      { startingMarginUsdt := 100, currentMarginBudgetUsdt := 100, leverage := 1/2,
        markPrice := 1, stepSize := 1, minNotionalUsdt := 0 }).marginRequiredUsdt = 100 ∧
    (computeSizingFromBudget
      { startingMarginUsdt := 100, currentMarginBudgetUsdt := 100, leverage := 1/2,
        markPrice := 1, stepSize := 1, minNotionalUsdt := 0 }).notionalUsdt /
      max ((1 : ℚ)/2) 1 = 50 ∧
    (100 : ℚ) ≠ 50 := by
  refine ⟨?_, ?_, by norm_num⟩ <;>
    norm_num [computeSizingFromBudget, roundDownToStep, Int.floor_eq_iff]

/-- C6 (amended): marginRequired equals computedNotional / leverage when
leverage > 0 and computedNotional otherwise; this agrees with the claimed
computedNotional / max(leverage, 1) whenever leverage ≥ 1 or leverage ≤ 0,
leaving 0 < leverage < 1 as the sole disagreement. -/
theorem marginRequired_eq (input : SizingInput) :
    ((computeSizingFromBudget input).marginRequiredUsdt =
      if input.leverage > 0 then (computeSizingFromBudget input).notionalUsdt / input.leverage
      else (computeSizingFromBudget input).notionalUsdt) ∧
    (1 ≤ input.leverage ∨ input.leverage ≤ 0 →
      (computeSizingFromBudget input).marginRequiredUsdt =
        (computeSizingFromBudget input).notionalUsdt / max input.leverage 1) := by
  constructor
  · rfl
  · rintro (h | h)
    · have hpos : input.leverage > 0 := lt_of_lt_of_le one_pos h
      have hmax : max input.leverage 1 = input.leverage := max_eq_left h
      simp only [computeSizingFromBudget, if_pos hpos, hmax]
    · have hneg : ¬ input.leverage > 0 := not_lt.mpr h
      have hmax : max input.leverage 1 = 1 := max_eq_right (h.trans zero_le_one)
      simp only [computeSizingFromBudget, if_neg hneg, hmax, div_one]

/-- C6 amended-claim witness: at leverage 10 the margin required equals
computedNotional / max(leverage, 1). -/
theorem marginRequired_eq_witness :
    (computeSizingFromBudget
      { startingMarginUsdt := 100, currentMarginBudgetUsdt := 100, leverage := 10,
        markPrice := 1, stepSize := 1, minNotionalUsdt := 0 }).marginRequiredUsdt =
    (computeSizingFromBudget
      { startingMarginUsdt := 100, currentMarginBudgetUsdt := 100, leverage := 10,
        markPrice := 1, stepSize := 1, minNotionalUsdt := 0 }).notionalUsdt /
      max (10 : ℚ) 1 :=
  (marginRequired_eq _).2 (Or.inl (by norm_num))

/-- C9: `computeSizingFromBudget` is total: a non-positive mark price
forces qty = 0; a non-positive step size or non-positive qty forces
qtyRounded = 0; and in every such degenerate case the result is blocked
with reason "min_notional".  In the rational-number embedding every
field is finite by construction, which models the source's
Number.isFinite guards being the only remaining escape hatches. -/
theorem sizing_total_safety (input : SizingInput) :
    (input.markPrice ≤ 0 → (computeSizingFromBudget input).qty = 0) ∧
    ((input.stepSize ≤ 0 ∨ (computeSizingFromBudget input).qty ≤ 0) →
      (computeSizingFromBudget input).qtyRounded = 0) ∧
    ((input.markPrice ≤ 0 ∨ input.stepSize ≤ 0 ∨ (computeSizingFromBudget input).qty ≤ 0) →
      (computeSizingFromBudget input).blockedReason = some "min_notional") := by
  have hqty : (computeSizingFromBudget input).qty =
      if input.markPrice > 0 then
        input.currentMarginBudgetUsdt * input.leverage / input.markPrice else 0 := rfl
  have hrounded : (computeSizingFromBudget input).qtyRounded =
      roundDownToStep (computeSizingFromBudget input).qty input.stepSize := rfl
  have hblocked : (computeSizingFromBudget input).blockedReason =
      if (computeSizingFromBudget input).qtyRounded ≤ 0 ∨
          ¬((computeSizingFromBudget input).qtyRounded * input.markPrice ≥ input.minNotionalUsdt)
        then some "min_notional" else none := rfl
  have hq0 : input.markPrice ≤ 0 → (computeSizingFromBudget input).qty = 0 := by
    intro h
    rw [hqty, if_neg (not_lt.mpr h)]
  have hr0 : input.stepSize ≤ 0 ∨ (computeSizingFromBudget input).qty ≤ 0 →
      (computeSizingFromBudget input).qtyRounded = 0 := by
    intro h
    rw [hrounded]
    unfold roundDownToStep
    rcases h with h | h
    · by_cases hq : (computeSizingFromBudget input).qty ≤ 0
      · rw [if_pos hq]
      · rw [if_neg hq, if_pos h]
    · rw [if_pos h]
  refine ⟨hq0, hr0, ?_⟩
  intro h
  have hzero : (computeSizingFromBudget input).qtyRounded = 0 := by
    rcases h with h | h | h
    · exact hr0 (Or.inr (le_of_eq (hq0 h)))
    · exact hr0 (Or.inl h)
    · exact hr0 (Or.inr h)
  rw [hblocked, if_pos (Or.inl (le_of_eq hzero))]

/-- C9 witness: a zero mark price yields qty 0, qtyRounded 0 and a
blocked result. -/
theorem sizing_total_safety_witness :
    (computeSizingFromBudget
      { startingMarginUsdt := 100, currentMarginBudgetUsdt := 100, leverage := 10,
        markPrice := 0, stepSize := 1/1000, minNotionalUsdt := 5 }).qty = 0 ∧
    (computeSizingFromBudget
      { startingMarginUsdt := 100, currentMarginBudgetUsdt := 100, leverage := 10,
        markPrice := 0, stepSize := 1/1000, minNotionalUsdt := 5 }).blockedReason =
      some "min_notional" :=
  ⟨(sizing_total_safety _).1 (by norm_num),
   (sizing_total_safety _).2.2 (Or.inl (by norm_num))⟩

/-- C5: with a positive mark price and step size, the sizing result is
blocked with reason "min_notional" exactly when the step-rounded
quantity `qF = ⌊(budget * leverage / markPrice) / stepSize⌋ * stepSize`
is non-positive or its notional `qF * markPrice` is below the minimum
notional, and otherwise the blocked reason is null. -/
theorem min_notional_block_iff (input : SizingInput) (qF : ℚ)
    (hq : qF = (⌊input.currentMarginBudgetUsdt * input.leverage / input.markPrice /
      input.stepSize⌋ : ℚ) * input.stepSize)
    (hm : 0 < input.markPrice) (hs : 0 < input.stepSize) :
    ((computeSizingFromBudget input).blockedReason = some "min_notional" ↔
      (qF ≤ 0 ∨ qF * input.markPrice < input.minNotionalUsdt)) ∧
    ((computeSizingFromBudget input).blockedReason = none ↔
      ¬(qF ≤ 0 ∨ qF * input.markPrice < input.minNotionalUsdt)) := by
  have hqty : (computeSizingFromBudget input).qty =
      input.currentMarginBudgetUsdt * input.leverage / input.markPrice := by
    show (if input.markPrice > 0 then
      input.currentMarginBudgetUsdt * input.leverage / input.markPrice else 0) = _
    rw [if_pos hm]
  have hrounded : (computeSizingFromBudget input).qtyRounded =
      roundDownToStep (computeSizingFromBudget input).qty input.stepSize := rfl
  have hblocked : (computeSizingFromBudget input).blockedReason =
      if (computeSizingFromBudget input).qtyRounded ≤ 0 ∨
          ¬((computeSizingFromBudget input).qtyRounded * input.markPrice ≥ input.minNotionalUsdt)
        then some "min_notional" else none := rfl
  by_cases hqle : (computeSizingFromBudget input).qty ≤ 0
  · -- degenerate case: raw quantity non-positive, both sides block
    have hz : (computeSizingFromBudget input).qtyRounded = 0 := by
      rw [hrounded]
      unfold roundDownToStep
      rw [if_pos hqle]
    have hqF : qF ≤ 0 := by
      have hdiv : input.currentMarginBudgetUsdt * input.leverage / input.markPrice /
          input.stepSize ≤ 0 := by
        rw [← hqty]
        exact div_nonpos_of_nonpos_of_nonneg hqle (le_of_lt hs)
      have hfl : (⌊input.currentMarginBudgetUsdt * input.leverage / input.markPrice /
          input.stepSize⌋ : ℚ) ≤ 0 := by
        exact_mod_cast Int.floor_nonpos hdiv
      rw [hq]
      exact mul_nonpos_of_nonpos_of_nonneg hfl (le_of_lt hs)
    rw [hblocked, if_pos (Or.inl (le_of_eq hz))]
    constructor
    · simp [hqF]
    · simp [hqF]
  · -- positive raw quantity: the code's rounded qty equals qF
    have hqpos : 0 < (computeSizingFromBudget input).qty := lt_of_not_ge hqle
    have heq : (computeSizingFromBudget input).qtyRounded = qF := by
      rw [hrounded]
      unfold roundDownToStep
      rw [if_neg hqle, if_neg (not_le.mpr hs), hq, hqty]
    rw [hblocked, heq]
    by_cases hblock : qF ≤ 0 ∨ qF * input.markPrice < input.minNotionalUsdt
    · have : qF ≤ 0 ∨ ¬(qF * input.markPrice ≥ input.minNotionalUsdt) := by
        rcases hblock with h | h
        · exact Or.inl h
        · exact Or.inr (not_le.mpr h)
      rw [if_pos this]
      simp [hblock]
    · have : ¬(qF ≤ 0 ∨ ¬(qF * input.markPrice ≥ input.minNotionalUsdt)) := by
        push_neg
        push_neg at hblock
        exact ⟨hblock.1, hblock.2⟩
      rw [if_neg this]
      simp [hblock]

/-- C5 witness (scenario S6 of the spec): budget 100 at leverage 10,
mark price 30000, step 0.001 and min notional 1000 is blocked, since
the rounded quantity 0.033 carries a notional of 990 < 1000. -/
theorem min_notional_block_iff_witness :
    (computeSizingFromBudget
      { startingMarginUsdt := 100, currentMarginBudgetUsdt := 100, leverage := 10,
        markPrice := 30000, stepSize := 1/1000, minNotionalUsdt := 1000 }).blockedReason =
      some "min_notional" :=
  ((min_notional_block_iff
      { startingMarginUsdt := 100, currentMarginBudgetUsdt := 100, leverage := 10,
        markPrice := 30000, stepSize := 1/1000, minNotionalUsdt := 1000 }
      (33/1000)
      (by norm_num [Int.floor_eq_iff])
      (by norm_num) (by norm_num)).1).mpr
    (Or.inr (by norm_num))

/-- C1: the sequence rule.  For a well-formed diff (`U ≤ u`): a diff
with `u ≤ lastUpdateId` is dropped (`ok`, `dropped`) leaving the state
unchanged; a diff with `U ≤ lastUpdateId + 1 ≤ u` is applied pair by
pair to both sides with `lastUpdateId` set to `u` (`ok`, `applied`);
and a diff with `U > lastUpdateId + 1` is a gap
(`¬ok`, `gapDetected`) leaving the state unchanged. -/
theorem sequence_rule (ob : OrderbookState) (upd : DepthUpdate) (hUu : upd.U ≤ upd.u) :
    (upd.u ≤ ob.lastUpdateId →
      applyDepthUpdate ob upd =
        (ob, { ok := true, applied := false, dropped := true, gapDetected := false })) ∧
    (upd.U ≤ ob.lastUpdateId + 1 → ob.lastUpdateId + 1 ≤ upd.u →
      applyDepthUpdate ob upd =
        ({ bids := upd.b.foldl applyLevel ob.bids
           asks := upd.a.foldl applyLevel ob.asks
           lastUpdateId := upd.u },
         { ok := true, applied := true, dropped := false, gapDetected := false })) ∧
    (upd.U > ob.lastUpdateId + 1 →
      applyDepthUpdate ob upd =
        (ob, { ok := false, applied := false, dropped := false, gapDetected := true })) := by
  unfold applyDepthUpdate
  refine ⟨fun h => ?_, fun h1 h2 => ?_, fun h => ?_⟩
  · rw [if_pos h]
  · rw [if_neg (by omega), if_neg (by omega)]
  · rw [if_neg (by omega), if_pos h]

/-- C1 witness (scenario S1 of the spec): with `lastUpdateId = 10` the
diff `{U:11, u:15}` is applied and the state's id becomes 15; with
`lastUpdateId = 20` the diff `{U:22, u:25}` is a gap and the state is
unchanged; with `lastUpdateId = 30` the diff `{U:28, u:30}` is dropped. -/
theorem sequence_rule_witness :
    applyDepthUpdate { bids := [], asks := [], lastUpdateId := 10 }
        { U := 11, u := 15, b := [], a := [] } =
      ({ bids := [], asks := [], lastUpdateId := 15 },
       { ok := true, applied := true, dropped := false, gapDetected := false }) ∧
    applyDepthUpdate { bids := [], asks := [], lastUpdateId := 20 }
        { U := 22, u := 25, b := [], a := [] } =
      ({ bids := [], asks := [], lastUpdateId := 20 },
       { ok := false, applied := false, dropped := false, gapDetected := true }) ∧
    applyDepthUpdate { bids := [], asks := [], lastUpdateId := 30 }
        { U := 28, u := 30, b := [], a := [] } =
      ({ bids := [], asks := [], lastUpdateId := 30 },
       { ok := true, applied := false, dropped := true, gapDetected := false }) :=
  ⟨(sequence_rule { bids := [], asks := [], lastUpdateId := 10 }
      { U := 11, u := 15, b := [], a := [] } (by decide)).2.1 (by decide) (by decide),
   (sequence_rule { bids := [], asks := [], lastUpdateId := 20 }
      { U := 22, u := 25, b := [], a := [] } (by decide)).2.2 (by decide),
   (sequence_rule { bids := [], asks := [], lastUpdateId := 30 }
      { U := 28, u := 30, b := [], a := [] } (by decide)).1 (by decide)⟩

/-- With nonnegative sizes, any depth-truncated volume sum is
nonnegative. -/
theorem calcVolume_nonneg (levels : List (ℚ × ℚ)) (depth : ℕ) (isAsk : Bool)
    (h : ∀ p ∈ levels, 0 ≤ p.2) : 0 ≤ calcVolume levels depth isAsk := by
  unfold calcVolume
  refine List.sum_nonneg ?_
  intro x hx
  obtain ⟨p, hp, rfl⟩ := List.mem_map.mp hx
  have hsorted : p ∈ levels.mergeSort
      (fun x y => if isAsk then x.1 ≤ y.1 else y.1 ≤ x.1) :=
    List.mem_of_mem_take hp
  exact h p ((List.mergeSort_perm levels _).mem_iff.mp hsorted)

/-- A normalised imbalance of two nonnegative volumes lies in [-1, 1]. -/
theorem imbalance_ratio_bounds (b a : ℚ) (hb : 0 ≤ b) (ha : 0 ≤ a)
    (hd : b + a > EPSILON) : -1 ≤ (b - a) / (b + a) ∧ (b - a) / (b + a) ≤ 1 := by
  have heps : (0 : ℚ) < EPSILON := by norm_num [EPSILON]
  have hpos : 0 < b + a := lt_trans heps hd
  constructor
  · rw [neg_le, ← neg_div]
    exact (div_le_one hpos).mpr (by linarith)
  · exact (div_le_one hpos).mpr (by linarith)

/-- C4 counterexample: the book with an empty bid side and asks
{101: 7, 102: 3} has one empty side, yet obiWeighted is -1, not 0. -/
theorem obi_empty_side_cex :
    (obiMetrics { bids := [], asks := [(101, 7), (102, 3)], lastUpdateId := 0 }).1 = -1 ∧
    ((-1 : ℚ) ≠ 0) := by
  constructor
  · norm_num [obiMetrics, calcVolume, List.mergeSort, EPSILON]
  · norm_num

/-- C4 (amended): for a book whose level sizes are nonnegative,
obiWeighted and obiDeep lie in [-1, 1] and obiDivergence in [-2, 2];
and when the book is empty on both sides all three are 0 (when exactly
one side is empty the nonzero side drives the imbalance to the
saturated value instead). -/
theorem obi_bounds (ob : OrderbookState)
    (hb : ∀ p ∈ ob.bids, 0 ≤ p.2) (ha : ∀ p ∈ ob.asks, 0 ≤ p.2) :
    (-1 ≤ (obiMetrics ob).1 ∧ (obiMetrics ob).1 ≤ 1) ∧
    (-1 ≤ (obiMetrics ob).2.1 ∧ (obiMetrics ob).2.1 ≤ 1) ∧
    (-2 ≤ (obiMetrics ob).2.2 ∧ (obiMetrics ob).2.2 ≤ 2) ∧
    (ob.bids = [] ∧ ob.asks = [] →
      (obiMetrics ob).1 = 0 ∧ (obiMetrics ob).2.1 = 0 ∧ (obiMetrics ob).2.2 = 0) := by
  have hw : ∀ d : ℕ, -1 ≤ (if calcVolume ob.bids d false + calcVolume ob.asks d true > EPSILON
      then (calcVolume ob.bids d false - calcVolume ob.asks d true) /
        (calcVolume ob.bids d false + calcVolume ob.asks d true) else 0) ∧
      (if calcVolume ob.bids d false + calcVolume ob.asks d true > EPSILON
      then (calcVolume ob.bids d false - calcVolume ob.asks d true) /
        (calcVolume ob.bids d false + calcVolume ob.asks d true) else 0) ≤ 1 := by
    intro d
    by_cases hd : calcVolume ob.bids d false + calcVolume ob.asks d true > EPSILON
    · rw [if_pos hd]
      exact imbalance_ratio_bounds _ _ (calcVolume_nonneg _ _ _ hb)
        (calcVolume_nonneg _ _ _ ha) hd
    · rw [if_neg hd]
      norm_num
  have h10 := hw 10
  have h50 := hw 50
  have hobi1 : (obiMetrics ob).1 =
      (if calcVolume ob.bids 10 false + calcVolume ob.asks 10 true > EPSILON
      then (calcVolume ob.bids 10 false - calcVolume ob.asks 10 true) /
        (calcVolume ob.bids 10 false + calcVolume ob.asks 10 true) else 0) := rfl
  have hobi2 : (obiMetrics ob).2.1 =
      (if calcVolume ob.bids 50 false + calcVolume ob.asks 50 true > EPSILON
      then (calcVolume ob.bids 50 false - calcVolume ob.asks 50 true) /
        (calcVolume ob.bids 50 false + calcVolume ob.asks 50 true) else 0) := rfl
  have hdiv : (obiMetrics ob).2.2 = (obiMetrics ob).1 - (obiMetrics ob).2.1 := rfl
  refine ⟨by rw [hobi1]; exact h10, by rw [hobi2]; exact h50, ?_, ?_⟩
  · rw [hdiv, hobi1, hobi2]
    constructor <;> linarith [h10.1, h10.2, h50.1, h50.2]
  · rintro ⟨hbe, hae⟩
    have hz : ∀ d : ℕ, ∀ s : Bool, calcVolume ([] : List (ℚ × ℚ)) d s = 0 := by
      intro d s
      simp [calcVolume, List.mergeSort]
    rw [hobi1, hobi2, hdiv, hobi1, hobi2, hbe, hae]
    rw [hz 10 false, hz 10 true, hz 50 false, hz 50 true]
    norm_num [EPSILON]

/-- C4 amended-claim witness (scenario S2 of the spec): the book with
bids {100:10, 99:5} and asks {101:7, 102:3} satisfies the bounds. -/
theorem obi_bounds_witness :
    (-1 ≤ (obiMetrics obS2).1 ∧ (obiMetrics obS2).1 ≤ 1) ∧
    (-1 ≤ (obiMetrics obS2).2.1 ∧ (obiMetrics obS2).2.1 ≤ 1) ∧
    (-2 ≤ (obiMetrics obS2).2.2 ∧ (obiMetrics obS2).2.2 ≤ 2) ∧
    (obS2.bids = [] ∧ obS2.asks = [] →
      (obiMetrics obS2).1 = 0 ∧ (obiMetrics obS2).2.1 = 0 ∧ (obiMetrics obS2).2.2 = 0) :=
  obi_bounds obS2 (by norm_num [obS2]) (by norm_num [obS2])

/-- Filtering with a stronger predicate absorbs an earlier weaker
filter. -/
theorem filter_filter_of_imp {α : Type} (p q : α → Bool) (l : List α)
    (h : ∀ x, p x = true → q x = true) : (l.filter q).filter p = l.filter p := by
  induction l with
  | nil => rfl
  | cons a t ih =>
    by_cases hp : p a = true
    · have hq := h a hp
      simp [List.filter_cons, hp, hq, ih]
    · by_cases hq : q a = true <;> simp [List.filter_cons, hp, hq, ih]

/-- Filtering a stored-trade window on a timestamp cutoff commutes
with the storing map, since storing preserves the timestamp. -/
theorem filter_store_comm (c : ℤ) (l : List TradeEvent) :
    (l.map storeCvd).filter (fun t => t.timestamp ≥ c) =
      (l.filter (fun t => t.timestamp ≥ c)).map storeCvd := by
  induction l with
  | nil => rfl
  | cons a t ih =>
    by_cases h : a.timestamp ≥ c
    · simp [List.filter_cons, storeCvd, h, ih]
    · simp [List.filter_cons, storeCvd, h, ih]

/-- C3 helper: folding a chronologically ordered trade list (written
`l ++ [e]` so the last trade is explicit) into an empty CVD window
leaves exactly the stored forms of the trades whose timestamp is
within the window duration measured from the last trade's timestamp. -/
theorem cvd_fold_window (ms : ℤ) (hms : 0 ≤ ms) (l : List TradeEvent) (e : TradeEvent)
    (hsorted : (l ++ [e]).Pairwise (fun p q => p.timestamp ≤ q.timestamp)) :
    List.foldl (cvdAddTrade ms) [] (l ++ [e]) =
      ((l ++ [e]).filter (fun t => t.timestamp ≥ e.timestamp - ms)).map storeCvd := by
  induction l using List.reverseRecOn generalizing e with
  | nil =>
    simp [cvdAddTrade, storeCvd, List.filter_cons, hms]
  | append_singleton l' e' ih =>
    have hs' : (l' ++ [e']).Pairwise (fun p q => p.timestamp ≤ q.timestamp) :=
      (List.pairwise_append.mp hsorted).1
    have hle : e'.timestamp ≤ e.timestamp :=
      (List.pairwise_append.mp hsorted).2.2 e' (by simp) e (by simp)
    rw [List.foldl_append, ih e' hs']
    show cvdAddTrade ms _ e = _
    unfold cvdAddTrade
    rw [List.filter_append, filter_store_comm]
    rw [filter_filter_of_imp _ _ _ ?_]
    · have hkeep : e.timestamp ≥ e.timestamp - ms := by omega
      rw [List.filter_append]
      by_cases hc : e.timestamp ≤ e'.timestamp + ms <;>
        simp [List.filter_cons, hkeep, storeCvd, hms, hc]
    · intro x hx
      simp only [decide_eq_true_eq] at hx ⊢
      omega

/-- C3 (amended): for trades added in non-decreasing timestamp order,
a timeframe window's cvd at read time equals the signed sum
(buy = +quantity, sell = -quantity) over exactly the trades with
timestamp ≥ refTime - durationMs, where refTime is the last added
trade's timestamp; and the returned delta equals the cvd. -/
theorem cvd_window_sum (ms : ℤ) (hms : 0 < ms) (l : List TradeEvent) (e : TradeEvent)
    (hsorted : (l ++ [e]).Pairwise (fun p q => p.timestamp ≤ q.timestamp)) :
    (cvdComputeMetrics (List.foldl (cvdAddTrade ms) [] (l ++ [e]))).cvd =
      (((l ++ [e]).filter (fun t => t.timestamp ≥ e.timestamp - ms)).map signedTe).sum ∧
    (cvdComputeMetrics (List.foldl (cvdAddTrade ms) [] (l ++ [e]))).delta =
      (cvdComputeMetrics (List.foldl (cvdAddTrade ms) [] (l ++ [e]))).cvd := by
  refine ⟨?_, rfl⟩
  rw [cvd_fold_window ms (le_of_lt hms) l e hsorted]
  show ((((l ++ [e]).filter _).map storeCvd).map (fun t => t.quantity)).sum = _
  rw [List.map_map]
  rfl

/-- C3 amended-claim witness: a buy of 1 at t = 0 followed by a sell of
2 at t = 500 under a 1000 ms window gives cvd = signed window sum and
delta = cvd. -/
theorem cvd_window_sum_witness :
    (cvdComputeMetrics (List.foldl (cvdAddTrade 1000) [] ([cvdWitA] ++ [cvdWitB]))).cvd =
      ((([cvdWitA] ++ [cvdWitB]).filter
        (fun t => t.timestamp ≥ cvdWitB.timestamp - 1000)).map signedTe).sum ∧
    (cvdComputeMetrics (List.foldl (cvdAddTrade 1000) [] ([cvdWitA] ++ [cvdWitB]))).delta =
      (cvdComputeMetrics (List.foldl (cvdAddTrade 1000) [] ([cvdWitA] ++ [cvdWitB]))).cvd :=
  cvd_window_sum 1000 (by norm_num) [cvdWitA] cvdWitB
    (by simp [List.pairwise_cons, cvdWitA, cvdWitB])

/-- C3 counterexample: with trades arriving out of timestamp order
(t = 1000, 2000, then 100) and a 500 ms window, the second add evicts
the first trade, so at read time the cvd is 2 while the signed sum of
all trades with timestamp ≥ refTime - 500 (refTime = 100, the last
trade's timestamp) is 3. -/
theorem cvd_refTime_cex :
    (cvdComputeMetrics (List.foldl (cvdAddTrade 500) [] cvdCexEvents)).cvd = 2 ∧
    ((cvdCexEvents.filter (fun t => t.timestamp ≥ (100 : ℤ) - 500)).map signedTe).sum = 3 ∧
    (2 : ℚ) ≠ 3 := by
  refine ⟨?_, ?_, by norm_num⟩ <;>
    norm_num [cvdCexEvents, cvdAddTrade, cvdComputeMetrics, storeCvd, signedTe,
      List.filter_cons]

/-- dropWhile removes nothing when the predicate fails on every
element. -/
theorem dropWhile_eq_self_of_all_neg {α : Type} (p : α → Bool) (l : List α)
    (h : ∀ x ∈ l, p x = false) : l.dropWhile p = l := by
  cases l with
  | nil => rfl
  | cons a t =>
    rw [List.dropWhile_cons, h a (List.mem_cons_self a t)]
    simp

/-- C7 helper: folding trades that all carry one timestamp into the
legacy calculator grows the rolling trade list by one per trade and
never evicts. -/
theorem legacy_fold_same_ts (tr : LegacyTrade) :
    ∀ (n : ℕ) (s : LegacyCalcState), (∀ t ∈ s.trades, t.timestamp = tr.timestamp) →
      (List.foldl legacyAddTrade s (List.replicate n tr)).trades.length = s.trades.length + n ∧
      (∀ t ∈ (List.foldl legacyAddTrade s (List.replicate n tr)).trades,
        t.timestamp = tr.timestamp) := by
  intro n
  induction n with
  | zero =>
    intro s hs
    exact ⟨rfl, hs⟩
  | succ k ih =>
    intro s hs
    rw [List.replicate_succ, List.foldl_cons]
    have htr : (legacyAddTrade s tr).trades = s.trades ++ [tr] := by
      show (s.trades ++ [tr]).dropWhile
        (fun t => t.timestamp < tr.timestamp - 10000) = s.trades ++ [tr]
      refine dropWhile_eq_self_of_all_neg _ _ ?_
      intro x hx
      rcases List.mem_append.mp hx with h | h
      · have hts := hs x h
        simp only [decide_eq_false_iff_not, not_lt, hts]
        omega
      · have hx' : x = tr := by simpa using h
        subst hx'
        simp only [decide_eq_false_iff_not, not_lt]
        omega
    have hmem : ∀ t ∈ (legacyAddTrade s tr).trades, t.timestamp = tr.timestamp := by
      rw [htr]
      intro t ht
      rcases List.mem_append.mp ht with h | h
      · exact hs t h
      · have ht' : t = tr := by simpa using h
        rw [ht']
    obtain ⟨hlen, hall⟩ := ih (legacyAddTrade s tr) hmem
    refine ⟨?_, hall⟩
    rw [hlen, htr, List.length_append]
    simp
    omega

/-- C7 helper: folding trade events that all carry one timestamp into a
CVD window grows the window by one per trade and never evicts. -/
theorem cvd_fold_same_ts (ms : ℤ) (hms : 0 ≤ ms) (e : TradeEvent) :
    ∀ (n : ℕ) (arr : List StoredCvdTrade), (∀ t ∈ arr, t.timestamp = e.timestamp) →
      (List.foldl (cvdAddTrade ms) arr (List.replicate n e)).length = arr.length + n ∧
      (∀ t ∈ List.foldl (cvdAddTrade ms) arr (List.replicate n e),
        t.timestamp = e.timestamp) := by
  intro n
  induction n with
  | zero =>
    intro arr h
    exact ⟨rfl, h⟩
  | succ k ih =>
    intro arr h
    rw [List.replicate_succ, List.foldl_cons]
    have hstep : cvdAddTrade ms arr e = arr ++ [storeCvd e] := by
      unfold cvdAddTrade
      refine List.filter_eq_self.mpr ?_
      intro x hx
      rcases List.mem_append.mp hx with hmem | hmem
      · have hts := h x hmem
        simp only [decide_eq_true_eq, ge_iff_le, hts]
        omega
      · have hx' : x = storeCvd e := by simpa using hmem
        subst hx'
        simp only [storeCvd, decide_eq_true_eq, ge_iff_le]
        omega
    have hmem : ∀ t ∈ cvdAddTrade ms arr e, t.timestamp = e.timestamp := by
      rw [hstep]
      intro t ht
      rcases List.mem_append.mp ht with hm | hm
      · exact h t hm
      · have ht' : t = storeCvd e := by simpa using hm
        rw [ht']
        rfl
    obtain ⟨hlen, hall⟩ := ih (cvdAddTrade ms arr e) hmem
    refine ⟨?_, hall⟩
    rw [hlen, hstep, List.length_append]
    simp
    omega

/-- C7: the 10000-entry cap claimed for the rolling windows is not
enforced by the code.  After 10001 trades carrying one timestamp, the
legacy calculator's rolling trade list and a CVD timeframe window
(duration 60000 ms) each hold 10001 > 10000 entries: time-based
eviction removes nothing and no count-based eviction exists. -/
theorem max_window_violation :
    (List.foldl legacyAddTrade legacyInit
      (List.replicate 10001 burstTrade)).trades.length = 10001 ∧
    (List.foldl (cvdAddTrade 60000) []
      (List.replicate 10001 burstEvent)).length = 10001 ∧
    10000 < 10001 := by
  refine ⟨?_, ?_, by norm_num⟩
  · have h := (legacy_fold_same_ts burstTrade 10001 legacyInit (by simp [legacyInit])).1
    have hz : legacyInit.trades.length + 10001 = 10001 := rfl
    exact h.trans hz
  · have h := (cvd_fold_same_ts 60000 (by norm_num) burstEvent 10001 []
      (by simp)).1
    have hz : ([] : List StoredCvdTrade).length + 10001 = 10001 := rfl
    exact h.trans hz

/-- In a strictly time-ordered history, the first sample satisfying the
cutoff predicate is the minimal-timestamp qualifying sample. -/
theorem find_first_qualifying (cutoff : ℤ) :
    ∀ (l : List OiSample) (x : OiSample),
      l.Pairwise (fun p q => p.timestamp < q.timestamp) →
      x ∈ l → cutoff ≤ x.timestamp →
      (∀ y ∈ l, cutoff ≤ y.timestamp → x.timestamp ≤ y.timestamp) →
      l.find? (fun h => h.timestamp ≥ cutoff) = some x := by
  intro l
  induction l with
  | nil =>
    intro x _ hmem
    cases hmem
  | cons a t ih =>
    intro x hsorted hmem hx hmin
    by_cases ha : cutoff ≤ a.timestamp
    · have hpa : decide (a.timestamp ≥ cutoff) = true := by
        simpa using ha
      simp only [List.find?_cons, hpa]
      rcases List.mem_cons.mp hmem with rfl | hmemt
      · rfl
      · exfalso
        have h1 : x.timestamp ≤ a.timestamp := hmin a (List.mem_cons_self a t) ha
        have h2 : a.timestamp < x.timestamp := (List.pairwise_cons.mp hsorted).1 x hmemt
        omega
    · have hpa : decide (a.timestamp ≥ cutoff) = false := by
        simpa using ha
      simp only [List.find?_cons, hpa]
      have hxa : x ≠ a := by
        intro hcontr
        exact ha (hcontr ▸ hx)
      have hmemt : x ∈ t := by
        rcases List.mem_cons.mp hmem with h | h
        · exact absurd h hxa
        · exact h
      exact ih x (List.pairwise_cons.mp hsorted).2 hmemt hx
        (fun y hy hcy => hmin y (List.mem_cons_of_mem a hy) hcy)

/-- C8: at every read of the monitor's metrics, provided the history is
strictly time-ordered and x is the oldest sample with
timestamp ≥ now - 60 s, the metrics satisfy
oiChangeAbs = currentOI - baseline, oiDeltaWindow = oiChangeAbs, and
oiChangePct = (currentOI - baseline) / baseline * 100 when the baseline
is positive and 0 when it is non-positive, with baseline = x.value. -/
theorem oi_metrics_formulas (oiHistory : List OiSample) (currentOI : ℚ) (now : ℤ)
    (x : OiSample)
    (hsorted : oiHistory.Pairwise (fun p q => p.timestamp < q.timestamp))
    (hmem : x ∈ oiHistory) (hx : now - WINDOW_MS ≤ x.timestamp)
    (hmin : ∀ y ∈ oiHistory, now - WINDOW_MS ≤ y.timestamp → x.timestamp ≤ y.timestamp) :
    (buildMetrics oiHistory currentOI now).oiChangeAbs = currentOI - x.value ∧
    (buildMetrics oiHistory currentOI now).oiDeltaWindow =
      (buildMetrics oiHistory currentOI now).oiChangeAbs ∧
    (0 < x.value → (buildMetrics oiHistory currentOI now).oiChangePct =
      (currentOI - x.value) / x.value * 100) ∧
    (x.value ≤ 0 → (buildMetrics oiHistory currentOI now).oiChangePct = 0) := by
  have hfind : oiHistory.find? (fun h => h.timestamp ≥ now - WINDOW_MS) = some x :=
    find_first_qualifying (now - WINDOW_MS) oiHistory x hsorted hmem hx hmin
  have habs : (buildMetrics oiHistory currentOI now).oiChangeAbs = currentOI - x.value := by
    simp only [buildMetrics, hfind]
  have hpct : (buildMetrics oiHistory currentOI now).oiChangePct =
      if x.value > 0 then (currentOI - x.value) / x.value * 100 else 0 := by
    simp only [buildMetrics, hfind]
  refine ⟨habs, rfl, ?_, ?_⟩
  · intro h
    rw [hpct, if_pos h]
  · intro h
    rw [hpct, if_neg (not_lt.mpr h)]

/-- C8 witness: history [(100, t=0), (110, t=30000)] read at now = 60000
with currentOI = 120: the baseline is the sample of value 100 and the
metrics are 20, 20 and 20 percent. -/
theorem oi_metrics_formulas_witness :
    (buildMetrics oiHistW 120 60000).oiChangeAbs = 120 - (100 : ℚ) ∧
    (buildMetrics oiHistW 120 60000).oiDeltaWindow =
      (buildMetrics oiHistW 120 60000).oiChangeAbs ∧
    (buildMetrics oiHistW 120 60000).oiChangePct = (120 - (100 : ℚ)) / 100 * 100 := by
  have h := oi_metrics_formulas oiHistW 120 60000 { value := 100, timestamp := 0 }
    (by simp [oiHistW, List.pairwise_cons])
    (by simp [oiHistW])
    (by norm_num [WINDOW_MS])
    (by
      intro y hy hcut
      simp only [oiHistW, List.mem_cons, List.not_mem_nil, or_false] at hy
      rcases hy with rfl | rfl <;> norm_num)
  exact ⟨h.1, h.2.1, h.2.2.1 (by norm_num)⟩
